import Mathlib

/-
Verification of the backend_parlamento repository (FastAPI backend).

Python strings are embedded as `List Char`.  Python `s.split(sep)` (for a
nonempty separator) is embedded as `pySplit`, built from `breakOn`, which
finds the first occurrence of the separator.  Python's substring test
`sep in s` is embedded as `strContains` (the split has more than one part
exactly when the separator occurs, and `breakOn` returns `some` exactly
in that case).
-/

namespace BackendP

abbrev Str := List Char

/-- Split off the first occurrence of `sep` in `s`: `some (a, b)` with
`s = a ++ sep ++ b` at the first occurrence, `none` when `sep` does not
occur in `s`. -/
def breakOn (sep : Str) : Str → Option (Str × Str)
  | [] => if sep.isPrefixOf ([] : Str) then some ([], []) else none
  | c :: cs =>
    if sep.isPrefixOf (c :: cs) then some ([], (c :: cs).drop sep.length)
    else
      match breakOn sep cs with
      | none => none
      | some (a, b) => some (c :: a, b)

theorem breakOn_some_length {sep : Str} (hs : sep ≠ []) :
    ∀ s a b, breakOn sep s = some (a, b) → b.length < s.length := by
  intro s
  induction s with
  | nil =>
    intro a b h
    simp only [breakOn] at h
    rw [if_neg] at h
    · exact absurd h (by simp)
    · intro hp
      exact hs (List.prefix_nil.mp (List.isPrefixOf_iff_prefix.mp hp))
  | cons c cs ih =>
    intro a b h
    simp only [breakOn] at h
    by_cases hp : sep.isPrefixOf (c :: cs)
    · rw [if_pos hp] at h
      cases h
      have h1 : 1 ≤ sep.length := List.length_pos.mpr hs
      simp only [List.length_drop, List.length_cons]
      omega
    · rw [if_neg hp] at h
      cases hbr : breakOn sep cs with
      | none => rw [hbr] at h; cases h
      | some p =>
        obtain ⟨a1, b1⟩ := p
        rw [hbr] at h
        injection Option.some.inj h with ha hb
        rw [← hb]
        have := ih a1 b1 hbr
        simp only [List.length_cons]
        omega

/-- Fuel-based worker for `pySplit` (the fuel makes the recursion
structural, so that terms built from it reduce inside the kernel). -/
def pySplitAux (sep : Str) : Nat → Str → List Str
  | 0, s => [s]
  | fuel + 1, s =>
    match breakOn sep s with
    | none => [s]
    | some (a, b) => a :: pySplitAux sep fuel b

/-- Embedding of Python `s.split(sep)` for a nonempty separator. -/
def pySplit (sep s : Str) : List Str :=
  pySplitAux sep (s.length + 1) s

theorem pySplitAux_fuel {sep : Str} (hs : sep ≠ []) :
    ∀ f1 f2 s, s.length < f1 → s.length < f2 →
      pySplitAux sep f1 s = pySplitAux sep f2 s := by
  intro f1
  induction f1 with
  | zero => intro f2 s h1 _; omega
  | succ f1 ih =>
    intro f2 s h1 h2
    cases f2 with
    | zero => omega
    | succ f2 =>
      simp only [pySplitAux]
      cases hbr : breakOn sep s with
      | none => rfl
      | some p =>
        obtain ⟨a, b⟩ := p
        have hlt := breakOn_some_length hs s a b hbr
        have := ih f2 b (by omega) (by omega)
        simp [this]

theorem pySplit_eq_none {sep s : Str} (h : breakOn sep s = none) :
    pySplit sep s = [s] := by
  simp [pySplit, pySplitAux, h]

theorem pySplit_eq_some {sep s a b : Str} (hs : sep ≠ [])
    (h : breakOn sep s = some (a, b)) :
    pySplit sep s = a :: pySplit sep b := by
  have hlt := breakOn_some_length hs s a b h
  simp only [pySplit, pySplitAux, h]
  congr 1
  exact pySplitAux_fuel hs (s.length) (b.length + 1) b (by omega) (by omega)

/-- Embedding of Python's substring test `sep in s` (for nonempty `sep`):
`sep` occurs in `s` exactly when `breakOn` finds an occurrence. -/
def strContains (sep s : Str) : Bool :=
  (breakOn sep s).isSome

/-- The URL markers and the canonical prefix from
`utils.convert_google_drive_link`. -/
def fileDMarker : Str := "/file/d/".data

def idEqMarker : Str := "id=".data

def slashStr : Str := "/".data

def ampStr : Str := "&".data

def directUrlPrefix : Str := "https://drive.google.com/uc?export=view&id=".data

/-- Embedding of `utils.convert_google_drive_link`:
if "/file/d/" occurs, the file id is `url.split("/file/d/")[1].split("/")[0]`;
otherwise, if "id=" occurs, it is `url.split("id=")[1].split("&")[0]`;
otherwise the input is returned unchanged.  The `try`/`except` around the
body never fires in this embedding (the guarded indexing cannot fail). -/
def convert_google_drive_link (drive_url : Str) : Str :=
  if strContains fileDMarker drive_url then
    directUrlPrefix ++
      ((pySplit slashStr ((pySplit fileDMarker drive_url).getD 1 [])).getD 0 [])
  else if strContains idEqMarker drive_url then
    directUrlPrefix ++
      ((pySplit ampStr ((pySplit idEqMarker drive_url).getD 1 [])).getD 0 [])
  else drive_url

/-- The file id that `convert_google_drive_link` extracts (`[]` when no
marker matches and the input is passed through). -/
def extractFileId (drive_url : Str) : Str :=
  if strContains fileDMarker drive_url then
    (pySplit slashStr ((pySplit fileDMarker drive_url).getD 1 [])).getD 0 []
  else if strContains idEqMarker drive_url then
    (pySplit ampStr ((pySplit idEqMarker drive_url).getD 1 [])).getD 0 []
  else []

example :
    convert_google_drive_link "https://drive.google.com/file/d/ABC123/view".data
      = ("https://drive.google.com/uc?export=view&id=ABC123").data := by decide

example :
    convert_google_drive_link "https://example.com/a.png".data
      = "https://example.com/a.png".data := by decide

example :
    convert_google_drive_link "https://drive.google.com/open?id=XYZ&usp=share".data
      = ("https://drive.google.com/uc?export=view&id=XYZ").data := by decide

theorem strContains_eq_false_iff {sep s : Str} :
    strContains sep s = false ↔ breakOn sep s = none := by
  unfold strContains
  cases breakOn sep s <;> simp

theorem breakOn_some_le (sep : Str) :
    ∀ s x y, breakOn sep s = some (x, y) → sep.length ≤ s.length := by
  intro s
  induction s with
  | nil =>
    intro x y h
    simp only [breakOn] at h
    by_cases hp : sep.isPrefixOf ([] : Str)
    · have : sep = [] := List.prefix_nil.mp (List.isPrefixOf_iff_prefix.mp hp)
      simp [this]
    · rw [if_neg hp] at h; cases h
  | cons c cs ih =>
    intro x y h
    simp only [breakOn] at h
    by_cases hp : sep.isPrefixOf (c :: cs)
    · exact (List.isPrefixOf_iff_prefix.mp hp).length_le
    · rw [if_neg hp] at h
      cases hbr : breakOn sep cs with
      | none => rw [hbr] at h; cases h
      | some p =>
        obtain ⟨x1, y1⟩ := p
        have := ih x1 y1 hbr
        simp only [List.length_cons]
        omega

theorem breakOn_cons (sep : Str) (c : Char) (cs : Str) :
    breakOn sep (c :: cs) =
      if sep.isPrefixOf (c :: cs) then some ([], (c :: cs).drop sep.length)
      else
        match breakOn sep cs with
        | none => none
        | some (a, b) => some (c :: a, b) := rfl

theorem breakOn_append_some {sep : Str} (hs : sep ≠ []) :
    ∀ (a b x y : Str), breakOn sep a = some (x, y) →
      breakOn sep (a ++ b) = some (x, y ++ b) := by
  intro a
  induction a with
  | nil =>
    intro b x y h
    simp only [breakOn] at h
    rw [if_neg (fun hp => hs (List.prefix_nil.mp (List.isPrefixOf_iff_prefix.mp hp)))] at h
    cases h
  | cons c cs ih =>
    intro b x y h
    have hgoal : breakOn sep ((c :: cs) ++ b) =
        if sep.isPrefixOf (c :: (cs ++ b)) then
          some ([], (c :: (cs ++ b)).drop sep.length)
        else
          match breakOn sep (cs ++ b) with
          | none => none
          | some (a1, b1) => some (c :: a1, b1) := rfl
    rw [breakOn_cons] at h
    by_cases hp : sep.isPrefixOf (c :: cs)
    · rw [if_pos hp] at h
      injection Option.some.inj h with hx hy
      have hpre : sep <+: (c :: cs) := List.isPrefixOf_iff_prefix.mp hp
      have hp2 : sep.isPrefixOf (c :: (cs ++ b)) := by
        refine List.isPrefixOf_iff_prefix.mpr ?_
        have hh : sep <+: ((c :: cs) ++ b) := hpre.trans (List.prefix_append _ b)
        exact hh
      have hdrop : (c :: (cs ++ b)).drop sep.length = (c :: cs).drop sep.length ++ b :=
        List.drop_append_of_le_length hpre.length_le
      rw [hgoal, if_pos hp2, hdrop, ← hx, ← hy]
    · rw [if_neg hp] at h
      cases hbr : breakOn sep cs with
      | none => rw [hbr] at h; cases h
      | some p =>
        obtain ⟨x1, y1⟩ := p
        rw [hbr] at h
        injection Option.some.inj h with hx hy
        have hle := breakOn_some_le sep cs x1 y1 hbr
        have hp2 : ¬ sep.isPrefixOf (c :: (cs ++ b)) := by
          intro hcon
          have hpre2 : sep <+: ((c :: cs) ++ b) := List.isPrefixOf_iff_prefix.mp hcon
          have hcc : (c :: cs) <+: ((c :: cs) ++ b) := List.prefix_append _ _
          have hsl : sep.length ≤ (c :: cs).length := by
            simp only [List.length_cons]; omega
          exact hp (List.isPrefixOf_iff_prefix.mpr
            (List.prefix_of_prefix_length_le hpre2 hcc hsl))
        rw [hgoal, if_neg hp2, ih b x1 y1 hbr, ← hx, ← hy]

theorem breakOn_append_none {sep : Str} (_hs : sep ≠ []) :
    ∀ (a b : Str), breakOn sep a = none →
      (∀ k, 0 < k → k < sep.length → ¬ (sep.take k <:+ a)) →
      breakOn sep (a ++ b) =
        (breakOn sep b).map (fun p => (a ++ p.1, p.2)) := by
  intro a
  induction a with
  | nil =>
    intro b _ _
    simp only [List.nil_append]
    cases hbr : breakOn sep b with
    | none => simp [hbr]
    | some p => obtain ⟨x, y⟩ := p; simp [hbr]
  | cons c cs ih =>
    intro b ha hstr
    have hgoal : breakOn sep ((c :: cs) ++ b) =
        if sep.isPrefixOf (c :: (cs ++ b)) then
          some ([], (c :: (cs ++ b)).drop sep.length)
        else
          match breakOn sep (cs ++ b) with
          | none => none
          | some (a1, b1) => some (c :: a1, b1) := rfl
    rw [breakOn_cons] at ha
    by_cases hp : sep.isPrefixOf (c :: cs)
    · rw [if_pos hp] at ha; cases ha
    · rw [if_neg hp] at ha
      have hrec : breakOn sep cs = none := by
        cases hbr : breakOn sep cs with
        | none => rfl
        | some p => obtain ⟨x, y⟩ := p; rw [hbr] at ha; cases ha
      have hp3 : ¬ sep.isPrefixOf (c :: (cs ++ b)) := by
        intro hcon
        have hpre2 : sep <+: ((c :: cs) ++ b) := List.isPrefixOf_iff_prefix.mp hcon
        have hcc : (c :: cs) <+: ((c :: cs) ++ b) := List.prefix_append _ _
        by_cases hlen : sep.length ≤ (c :: cs).length
        · exact hp (List.isPrefixOf_iff_prefix.mpr
            (List.prefix_of_prefix_length_le hpre2 hcc hlen))
        · have hccs : (c :: cs) <+: sep :=
            List.prefix_of_prefix_length_le hcc hpre2 (by omega)
          have htake : (c :: cs) = sep.take (c :: cs).length :=
            List.prefix_iff_eq_take.mp hccs
          refine hstr (c :: cs).length (by simp) (by omega) ?_
          rw [← htake]
      have hstr2 : ∀ k, 0 < k → k < sep.length → ¬ (sep.take k <:+ cs) := by
        intro k hk hklt hsuf
        exact hstr k hk hklt (hsuf.trans (List.suffix_cons c cs))
      rw [hgoal, if_neg hp3, ih b hrec hstr2]
      cases hbr2 : breakOn sep b with
      | none => simp [hbr2]
      | some p => obtain ⟨x, y⟩ := p; simp [hbr2]

/-- The part of the canonical direct URL before its trailing "id=". -/
def uptoIdPrefix : Str := "https://drive.google.com/uc?export=view&".data

theorem breakOn_fileD_directUrlPrefix : breakOn fileDMarker directUrlPrefix = none := by
  decide

theorem noStraddle_fileD_directUrlPrefix :
    ∀ k, k < fileDMarker.length → 0 < k →
      ¬ (fileDMarker.take k <:+ directUrlPrefix) := by
  decide

theorem breakOn_idEq_directUrlPrefix :
    breakOn idEqMarker directUrlPrefix = some (uptoIdPrefix, []) := by
  decide

/-- Rewriting an already-canonical direct URL whose file id contains none
of the markers "/file/d/", "id=", "&" returns it unchanged. -/
theorem convert_direct_fixed (fid : Str)
    (h1 : strContains fileDMarker fid = false)
    (h2 : strContains idEqMarker fid = false)
    (h3 : strContains ampStr fid = false) :
    convert_google_drive_link (directUrlPrefix ++ fid) = directUrlPrefix ++ fid := by
  have hb1 : breakOn fileDMarker fid = none := strContains_eq_false_iff.mp h1
  have hb2 : breakOn idEqMarker fid = none := strContains_eq_false_iff.mp h2
  have hb3 : breakOn ampStr fid = none := strContains_eq_false_iff.mp h3
  have hA : breakOn fileDMarker (directUrlPrefix ++ fid) = none := by
    rw [breakOn_append_none (by decide) directUrlPrefix fid
      breakOn_fileD_directUrlPrefix
      (fun k hk hklt => noStraddle_fileD_directUrlPrefix k hklt hk), hb1]
    rfl
  have hB : breakOn idEqMarker (directUrlPrefix ++ fid) = some (uptoIdPrefix, fid) := by
    have := breakOn_append_some (by decide : idEqMarker ≠ []) directUrlPrefix fid
      uptoIdPrefix [] breakOn_idEq_directUrlPrefix
    simpa using this
  have hg1 : strContains fileDMarker (directUrlPrefix ++ fid) = false := by
    rw [strContains, hA]; rfl
  have hg2 : strContains idEqMarker (directUrlPrefix ++ fid) = true := by
    rw [strContains, hB]; rfl
  unfold convert_google_drive_link
  rw [hg1, hg2]
  simp only [Bool.false_eq_true, if_false, if_true]
  rw [pySplit_eq_some (by decide : idEqMarker ≠ []) hB, pySplit_eq_none hb2]
  simp only [List.getD_cons_succ, List.getD_cons_zero]
  rw [pySplit_eq_none hb3]
  simp only [List.getD_cons_zero]

theorem convert_eq_of_fileD {x : Str} (h : strContains fileDMarker x = true) :
    convert_google_drive_link x = directUrlPrefix ++ extractFileId x := by
  unfold convert_google_drive_link extractFileId
  rw [h]
  simp

theorem convert_eq_of_idEq {x : Str} (h1 : strContains fileDMarker x = false)
    (h2 : strContains idEqMarker x = true) :
    convert_google_drive_link x = directUrlPrefix ++ extractFileId x := by
  unfold convert_google_drive_link extractFileId
  rw [h1, h2]
  simp

theorem convert_eq_of_nomatch {x : Str} (h1 : strContains fileDMarker x = false)
    (h2 : strContains idEqMarker x = false) :
    convert_google_drive_link x = x := by
  unfold convert_google_drive_link
  rw [h1, h2]
  simp

/-- C4 counterexample: for the input "a/file/d/b&c" the extracted file id
"b&c" contains "&", and a second rewrite truncates it, so
rewrite (rewrite x) differs from rewrite x. -/
theorem C4_counterexample :
    ¬ (convert_google_drive_link (convert_google_drive_link "a/file/d/b&c".data)
        = convert_google_drive_link "a/file/d/b&c".data) := by
  decide

/-- C4 (amended): `convert_google_drive_link` leaves an input containing
neither the "/file/d/" path marker nor the "id=" query marker unchanged;
it leaves an already-canonical direct URL unchanged provided the file id
contains none of "/file/d/", "id=", "&"; and it is idempotent on every
input whose extracted file id contains none of those three markers.
(Unrestricted idempotence is refuted by `C4_counterexample`.) -/
theorem C4_rewrite_idempotent_amended :
    (∀ x : Str, strContains fileDMarker x = false →
        strContains idEqMarker x = false →
        convert_google_drive_link x = x)
    ∧ (∀ fid : Str, strContains fileDMarker fid = false →
        strContains idEqMarker fid = false →
        strContains ampStr fid = false →
        convert_google_drive_link (directUrlPrefix ++ fid) = directUrlPrefix ++ fid)
    ∧ (∀ x : Str, strContains fileDMarker (extractFileId x) = false →
        strContains idEqMarker (extractFileId x) = false →
        strContains ampStr (extractFileId x) = false →
        convert_google_drive_link (convert_google_drive_link x)
          = convert_google_drive_link x) := by
  refine ⟨fun x h1 h2 => convert_eq_of_nomatch h1 h2, convert_direct_fixed, ?_⟩
  intro x h1 h2 h3
  cases hg1 : strContains fileDMarker x with
  | true =>
    rw [convert_eq_of_fileD hg1]
    exact convert_direct_fixed _ h1 h2 h3
  | false =>
    cases hg2 : strContains idEqMarker x with
    | true =>
      rw [convert_eq_of_idEq hg1 hg2]
      exact convert_direct_fixed _ h1 h2 h3
    | false =>
      rw [convert_eq_of_nomatch hg1 hg2, convert_eq_of_nomatch hg1 hg2]

/-- Witness for C4: concrete instantiation of each conjunct. -/
theorem C4_witness :
    (strContains fileDMarker "https://example.com/a.png".data = false
      ∧ convert_google_drive_link "https://example.com/a.png".data
          = "https://example.com/a.png".data)
    ∧ (strContains ampStr "ABC123".data = false
      ∧ convert_google_drive_link (directUrlPrefix ++ "ABC123".data)
          = directUrlPrefix ++ "ABC123".data)
    ∧ (strContains ampStr (extractFileId "https://drive.google.com/file/d/ABC123/view".data) = false
      ∧ convert_google_drive_link
          (convert_google_drive_link "https://drive.google.com/file/d/ABC123/view".data)
          = convert_google_drive_link "https://drive.google.com/file/d/ABC123/view".data) :=
  ⟨⟨by decide, C4_rewrite_idempotent_amended.1 _ (by decide) (by decide)⟩,
   ⟨by decide, C4_rewrite_idempotent_amended.2.1 _ (by decide) (by decide) (by decide)⟩,
   ⟨by decide, C4_rewrite_idempotent_amended.2.2 _ (by decide) (by decide) (by decide)⟩⟩

/-
Rows.  `gspread`'s `get_all_records()` yields one dict per data row, with
the header cells as keys.  A dict is embedded as an association list in
insertion order; Python `dict.get` / `dict[...] = v` become `pyGet` /
`pySet`.  Menu rows are modelled with string values (`MRow`); event rows
carry `PyVal` values (`ERow`), since an event's `capacity` may be an int.
-/

/-- A spreadsheet cell value as delivered by `get_all_records`. -/
inductive PyVal where
  | str (s : Str)
  | int (n : Int)
deriving DecidableEq

/-- Embedding of Python `d.get(k)`: the value stored under the first
matching key, if any. -/
def pyGet {β : Type} (row : List (Str × β)) (k : Str) : Option β :=
  match row with
  | [] => none
  | (k1, v) :: rest => if k1 = k then some v else pyGet rest k

/-- Embedding of Python `d.get(k, default)`. -/
def pyGetD {β : Type} (row : List (Str × β)) (k : Str) (d : β) : β :=
  (pyGet row k).getD d

/-- Embedding of Python `d[k] = v`: replace the value at the first
matching key in place, or append a new binding at the end (Python dicts
keep insertion order and update in place). -/
def pySet {β : Type} (row : List (Str × β)) (k : Str) (v : β) : List (Str × β) :=
  match row with
  | [] => [(k, v)]
  | (k1, v1) :: rest => if k1 = k then (k1, v) :: rest else (k1, v1) :: pySet rest k v

/-- Python truthiness of a string: nonempty. -/
def truthyStr (s : Str) : Bool := !s.isEmpty

/-- Python truthiness of `d.get(k)` when absent keys give `None`. -/
def truthyOptStr (v : Option Str) : Bool :=
  match v with
  | none => false
  | some s => truthyStr s

/-- Python truthiness of a cell value (`""` and `0` are falsy). -/
def truthyVal (v : PyVal) : Bool :=
  match v with
  | .str s => !s.isEmpty
  | .int n => !(n == 0)

def truthyOptVal (v : Option PyVal) : Bool :=
  match v with
  | none => false
  | some v => truthyVal v

/-- Embedding of Python `str.strip()` (ASCII whitespace). -/
def pyStrip (s : Str) : Str :=
  ((s.dropWhile Char.isWhitespace).reverse.dropWhile Char.isWhitespace).reverse

/-- Embedding of Python `str.lower()` (ASCII case folding). -/
def pyLower (s : Str) : Str := s.map Char.toLower

/-- Embedding of Python `str(v)`. -/
def pyStr (v : PyVal) : Str :=
  match v with
  | .str s => s
  | .int n => (toString n).data

/- ------------------------------------------------------------------
Menu transform (`utils.transform_menu_data`).
------------------------------------------------------------------ -/

/-- A menu row: header keys `item_id`, `category_key`, `item_name`,
`item_description`, `item_price`, `item_image`, `item_tags`,
`item_historical`, with string cells. -/
abbrev MRow := List (Str × Str)

structure MenuItem where
  id : Str
  name : Str
  description : Str
  price : Str
  image : Str
  tags : List Str
  historical : Str
deriving DecidableEq

structure MenuCategory where
  title : Str
  items : List MenuItem
deriving DecidableEq

/-- The nested menu structure: a dict keyed by category key. -/
abbrev MenuDict := List (Str × MenuCategory)

def driveHostMarker : Str := "drive.google.com".data

/-- The `menu_item` dict built for one non-skipped row of
`transform_menu_data`. -/
def mkMenuItem (item : MRow) : MenuItem :=
  let tags_str := pyGetD item "item_tags".data []
  let tags :=
    if truthyStr tags_str then
      (pySplit ",".data tags_str).filterMap
        (fun tag => if truthyStr (pyStrip tag) then some (pyStrip tag) else none)
    else []
  let image_url := pyGetD item "item_image".data []
  let image_url :=
    if truthyStr image_url && strContains driveHostMarker image_url then
      convert_google_drive_link image_url
    else image_url
  { id := pyGetD item "item_id".data []
  , name := pyGetD item "item_name".data []
  , description := pyGetD item "item_description".data []
  , price := pyGetD item "item_price".data []
  , image := image_url
  , tags := tags
  , historical := pyGetD item "item_historical".data [] }

/-- Append a menu item to the `items` of the category stored under `k`
(Python `menu[category_key]["items"].append(menu_item)`). -/
def menuAppend (k : Str) (it : MenuItem) (m : MenuDict) : MenuDict :=
  m.map (fun p => if p.1 = k then (p.1, ⟨p.2.title, p.2.items ++ [it]⟩) else p)

/-- The normalized category key: `item.get("category_key", "").lower().strip()`. -/
def normCategoryKey (item : MRow) : Str :=
  pyStrip (pyLower (pyGetD item "category_key".data []))

/-- One iteration of the `for item in raw_items` loop of
`transform_menu_data`: skip the row when `category_key` or `item_name`
is falsy; otherwise append the built item to its category bucket when the
normalized key is one of the menu's keys, and drop it (with a logged
warning) otherwise. -/
def menuStep (menu : MenuDict) (item : MRow) : MenuDict :=
  if !truthyOptStr (pyGet item "category_key".data)
      || !truthyOptStr (pyGet item "item_name".data) then
    menu
  else if menu.any (fun p => p.1 = normCategoryKey item) then
    menuAppend (normCategoryKey item) (mkMenuItem item) menu
  else
    menu

def cafesKey : Str := "cafes y bebidas".data

def autorKey : Str := "autor".data

def pasteleriaKey : Str := "pasteleria".data

/-- The initial three-bucket menu dict of `transform_menu_data`. -/
def menuInit : MenuDict :=
  [ (cafesKey, ⟨"Cafes y Bebidas".data, []⟩)
  , (autorKey, ⟨"Cocina de Autor".data, []⟩)
  , (pasteleriaKey, ⟨"Pastelería".data, []⟩) ]

/-- Embedding of `utils.transform_menu_data`.  The Lean transform is a
total function: the dict operations of the loop body cannot raise, so the
`except`/`raise` wrapper of the Python code is never exercised. -/
def transform_menu_data (raw_items : List MRow) : MenuDict :=
  raw_items.foldl menuStep menuInit

/-- Items of the category stored under key `k`. -/
def catItems (k : Str) (m : MenuDict) : List MenuItem :=
  match pyGet m k with
  | none => []
  | some cat => cat.items

/-- Embedding of `utils.get_hardcoded_menu` (the fallback menu payload). -/
def get_hardcoded_menu : MenuDict :=
  [ (cafesKey, ⟨"Cafes y Bebidas".data,
      [ { id := "b1".data
        , name := "Chuflay de arándanos".data
        , description := " Versión frutal del clásico Chuflay, con singani, ginger ale y toque de arándanos, aportando dulzura y color vibrante.".data
        , price := "39 Bs".data
        , image := "/menu/cafes_bebidas/chuflay_arandanos.jpg".data
        , tags := ["Coctelería".data]
        , historical := [] }
      , { id := "b2".data
        , name := "DS 21060".data
        , description := "Vermouth, vodka y singani, con almíbar y limón fresco, completada con agua tónica para un toque burbujeante y equilibrado.".data
        , price := "42 Bs".data
        , image := "/menu/cafes_bebidas/ds_21060.jpg".data
        , tags := ["Cocteleria".data, "De la Casa".data]
        , historical := [] }
      , { id := "b3".data
        , name := "Chuflay".data
        , description := "Tradicional boliviano con singani y ginger ale, servido con hielo y rodaja de limón.".data
        , price := "39 Bs".data
        , image := "/menu/menu_placeholder.png".data
        , tags := ["Coctelería".data, "Frio".data]
        , historical := [] }
      , { id := "b4".data
        , name := "Chola Latte".data
        , description := "A rich latte with hints of chocolate and chuño (freeze-dried potato), a unique Bolivian twist.".data
        , price := "18 Bs".data
        , image := "/menu/menu_placeholder.png".data
        , tags := ["Hot".data]
        , historical := "Honors the iconic Cholitas, indigenous Bolivian women".data }
      , { id := "b5".data
        , name := "Singani sour".data
        , description := "Singani, zumo de limón, jarabe de azúcar, clara de huevo y angostura.".data
        , price := "39 Bs".data
        , image := "/menu/menu_placeholder.png".data
        , tags := ["Coctelería".data, "Frio".data]
        , historical := [] }
      , { id := "b6".data
        , name := "Golpe de estado".data
        , description := "Shot de tequila con triple sec, acompañado de un gajo de limón encostrado en azúcar y ajíes nativos".data
        , price := "33 Bs".data
        , image := "/menu/menu_placeholder.png".data
        , tags := ["Coctelería".data, "Frio".data]
        , historical := [] } ]⟩)
  , (autorKey, ⟨"Cocina de Autor".data,
      [ { id := "c1".data
        , name := "Domitila".data
        , description := "Cerdo bañado en velouté de ají amarillo con encurtidos de zanahoria, cebolla y tomate.".data
        , price := "66 Bs".data
        , image := "/menu/cocina_de_autor/domitila.jpg".data
        , tags := ["Auténtico".data, "Sandwich".data]
        , historical := "Inspirado en la fuerza y el carácter de Domitila Barrios de Chungara, figura emblemáticas de la resistencia obrera y femenina en Bolivia.".data }
      , { id := "c2".data
        , name := "Incahuasi".data
        , description := "Bife ancho con queso criollo gratinado, rúcula, cebolla y pimiento caramelizados, mayonesa de ají de padilla.".data
        , price := "66 Bs".data
        , image := "/menu/menu_placeholder.png".data
        , tags := ["Sandwich".data]
        , historical := "Incahuasi, que en quechua significa \x27la casa del Inca\x27".data }
      , { id := "c3".data
        , name := "Gran Poder".data
        , description := "Anticucho salteado, lechuga suiza, pimiento morrón, choclo y salsa de maní ahumada".data
        , price := "66 Bs".data
        , image := "/menu/cocina_de_autor/gran_poder.jpg".data
        , tags := ["Sandwich".data]
        , historical := "Inspirado en la fiesta mayor de los Andes, una explosión de identidad, devoción y cultura popular que cada año transforma las calles de La Paz.".data }
      , { id := "c4".data
        , name := "Crispy Colonial".data
        , description := "Pollo frito bañado en salsa barbacoa, coleslaw, brotes y semillas de sésamo.".data
        , price := "66 Bs".data
        , image := "/menu/cocina_de_autor/crispy_colonial.jpg".data
        , tags := ["Sandwich".data]
        , historical := "Inspirado en la Colonia, una época de imposiciones, contrastes y resistencias en Bolivia.".data }
      , { id := "c5".data
        , name := "Neo Liberal".data
        , description := "Desayuno clásico con pan baguette, mantequilla y mermelada, huevos revueltos cubiertos con miel, bowl de yogurt con frutillas y granola. Incluye una bebida fria y caliente".data
        , price := "70 Bs".data
        , image := "/menu/cocina_de_autor/neo_liberal.png".data
        , tags := ["Desayuno".data]
        , historical := "El neoliberalismo es una corriente de pensamiento económico y político que enfatiza la importancia del libre mercado y la minimización de la intervención estatal en la economía.".data }
      , { id := "c6".data
        , name := "Pachacuti".data
        , description := "Salsa de tomate casera con notas ahumadas, huevo pochado, chorizo chuquisaqueño, tocino y bocconcinos de queso criollo acompañado con tostadas.".data
        , price := "60 Bs".data
        , image := "/menu/cocina_de_autor/pachacuti.jpg".data
        , tags := ["Desayuno".data]
        , historical := "Noveno gobernante del Estado inca, y quien lo gobernó en su expansión desde un curacazgo regional hasta convertirse en un imperio.".data }
      , { id := "c7".data
        , name := "Compadre".data
        , description := "Pan campesino con queso crema de paprika, rodajas de palta, huevos benedictinos con salsa holandesa, bowl de yogurt con frutas y granola".data
        , price := "68 Bs".data
        , image := "/menu/cocina_de_autor/compadre.jpg".data
        , tags := ["Desayuno".data]
        , historical := "Persona con quien se ha establecido un lazo de compadrazgo, generalmente a través de un bautizo, primera comunión o, en algunos casos, una boda".data }
      , { id := "c8".data
        , name := "El Fundido Del Libertador".data
        , description := "Dos tostadas de pan campesino, tres tipos de queso, jamón ahumado y cubierto con huevo frito.".data
        , price := "55 Bs".data
        , image := "/menu/cocina_de_autor/el_fundido_del_lib.jpg".data
        , tags := ["Desayuno".data]
        , historical := "Estatua ecuestre de Simón Bolívar, una escultura de bronce fundido ubicada en la Plaza Bolívar de Caracas.".data }
      , { id := "c9".data
        , name := "Reforma Agraria".data
        , description := "Mix de quinuas, porotos, garbanzos, mango, cebolla, pimiento morrón, palta, cilantro y bañado en un alioli de ajíes nativos.".data
        , price := "66 Bs".data
        , image := "/menu/cocina_de_autor/reforma_agraria.webp".data
        , tags := ["Rebowlucion".data, "Auténtico".data]
        , historical := "Inspirado en el histórico Decreto de Reforma Agraria de 1953, que transformó el acceso a la tierra en Bolivia, rinde homenaje a las raíces campesinas y diversidad de ingredientes que nacen de nuestra tierra.".data }
      , { id := "c10".data
        , name := "Revolución".data
        , description := "Bife angosto, base de lechuga crespa, rúcula, tomates frescos, cebolla, requesón, pepino, frutillas con aceto balsámico.".data
        , price := "66 Bs".data
        , image := "/menu/cocina_de_autor/revolucion.webp".data
        , tags := ["Rebowlucion".data]
        , historical := "Movimiento social y político que marcó un cambio fundamental en la historia de Bolivia".data }
      , { id := "c11".data
        , name := "Urus".data
        , description := "Trucha encostrada en quinua, una base de rúcula y espinaca morada, pepino, palta, semillas de girasol, requesón y alioli de cilantro con crujientes de camote.".data
        , price := "73 Bs".data
        , image := "/menu/cocina_de_autor/urus.webp".data
        , tags := ["Rebowlucion".data]
        , historical := "Pueblo indígena que se distribuye en la meseta del Collao en territorios de Bolivia".data }
      , { id := "c12".data
        , name := "Obrera".data
        , description := "Mix de lechugas, tomates frescos, requesón, pollo frito, tocino, piña asada y aderezo de miel y mostaza.".data
        , price := "66 Bs".data
        , image := "/menu/menu_placeholder.png".data
        , tags := ["Rebowlucion".data]
        , historical := [] } ]⟩)
  , (pasteleriaKey, ⟨"Pastelería".data,
      [ { id := "d1".data
        , name := "Torta de chocolate".data
        , description := "Húmeda rellena de dulce de leche con cobertura de ganache de chocolate semiamargo".data
        , price := "25 Bs".data
        , image := "/menu/pasteleria/cake_choc.webp".data
        , tags := ["Dulce".data]
        , historical := [] } ]⟩) ]

/- ------------------------------------------------------------------
Events transform (`services.GoogleSheetsService.get_events_data` loop,
with `utils.normalize_event_date`).
------------------------------------------------------------------ -/

def digitVal (c : Char) : Option Nat :=
  if c.isDigit then some (c.toNat - 48) else none

def parse2 (a b : Char) : Option Nat := do
  let x ← digitVal a
  let y ← digitVal b
  pure (x * 10 + y)

def parse4 (a b c d : Char) : Option Nat := do
  let x ← digitVal a
  let y ← digitVal b
  let z ← digitVal c
  let w ← digitVal d
  pure (x * 1000 + y * 100 + z * 10 + w)

/-- A parsed date-time value (the `datetime.datetime` fields that the
backend's date strings carry; microseconds and time zones do not occur). -/
structure PyDateTime where
  year : Nat
  month : Nat
  day : Nat
  hour : Nat
  minute : Nat
  second : Nat
deriving DecidableEq

/-- `datetime` field validation (Python `datetime` accepts years 1..9999;
days are checked against 31 here rather than the per-month length). -/
def mkDateTime (y mo d h mi s : Nat) : Option PyDateTime :=
  if 1 ≤ y ∧ y ≤ 9999 ∧ 1 ≤ mo ∧ mo ≤ 12 ∧ 1 ≤ d ∧ d ≤ 31
      ∧ h ≤ 23 ∧ mi ≤ 59 ∧ s ≤ 59 then
    some ⟨y, mo, d, h, mi, s⟩
  else none

/-- Modelled from the spec: `dateutil.parser.parse` is third-party code
(not in this repository); the spec describes its use on inputs such as
"2024-07-01" and "2024-07-01T00:00:00", so the model accepts exactly the
ISO date and ISO date-time shapes and fails on everything else. -/
def parseDateTime : Str → Option PyDateTime
  | [y1, y2, y3, y4, '-', m1, m2, '-', d1, d2] => do
    let y ← parse4 y1 y2 y3 y4
    let mo ← parse2 m1 m2
    let d ← parse2 d1 d2
    mkDateTime y mo d 0 0 0
  | [y1, y2, y3, y4, '-', m1, m2, '-', d1, d2, 'T',
     h1, h2, ':', mi1, mi2, ':', s1, s2] => do
    let y ← parse4 y1 y2 y3 y4
    let mo ← parse2 m1 m2
    let d ← parse2 d1 d2
    let h ← parse2 h1 h2
    let mi ← parse2 mi1 mi2
    let s ← parse2 s1 s2
    mkDateTime y mo d h mi s
  | _ => none

def render2 (n : Nat) : Str := [Nat.digitChar (n / 10), Nat.digitChar (n % 10)]

def render4 (n : Nat) : Str :=
  [Nat.digitChar (n / 1000), Nat.digitChar (n / 100 % 10),
   Nat.digitChar (n / 10 % 10), Nat.digitChar (n % 10)]

/-- `datetime.isoformat()` for a value without microseconds/tzinfo:
"YYYY-MM-DDTHH:MM:SS". -/
def isoFormat (dt : PyDateTime) : Str :=
  render4 dt.year ++ '-' :: render2 dt.month ++ '-' :: render2 dt.day
    ++ 'T' :: render2 dt.hour ++ ':' :: render2 dt.minute ++ ':' :: render2 dt.second

/-- Embedding of `utils.normalize_event_date`: best-effort parse, render
as ISO 8601 on success, return the input verbatim on failure. -/
def normalize_event_date (date_str : Str) : Str :=
  match parseDateTime date_str with
  | some dt => isoFormat dt
  | none => date_str

/-- Embedding of Python `int(...)` on a stripped decimal string with an
optional sign (the shapes a spreadsheet capacity cell can carry). -/
def digitsVal (ds : Str) : Option Nat :=
  if ds.isEmpty then none
  else
    ds.foldl
      (fun acc c =>
        match acc with
        | none => none
        | some a =>
          match digitVal c with
          | none => none
          | some d => some (a * 10 + d))
      (some 0)

def pyIntOfStr (s : Str) : Option Int :=
  match pyStrip s with
  | '-' :: ds => (digitsVal ds).map (fun n => -(n : Int))
  | '+' :: ds => (digitsVal ds).map (fun n => (n : Int))
  | ds => (digitsVal ds).map (fun n => (n : Int))

/-- Embedding of Python `int(v)` on a cell value: identity on ints,
decimal parse on strings (`none` models the `ValueError`). -/
def pyInt (v : PyVal) : Option Int :=
  match v with
  | .int n => some n
  | .str s => pyIntOfStr s

/-- An event row (header keys `id`, `title`, `date`, `time`, `location`,
`description`, `image`, `category`, `capacity`). -/
abbrev ERow := List (Str × PyVal)

/-- First statement of the `for event in raw_events` loop of
`get_events_data`:
`event["date"] = normalize_event_date(str(event["date"])) if event.get("date") else ""`. -/
def transformEventDate (event : ERow) : ERow :=
  pySet event "date".data
    (if truthyOptVal (pyGet event "date".data) then
      .str (normalize_event_date (pyStr (pyGetD event "date".data (.str []))))
    else .str [])

/-- Second statement of the loop: `event["capacity"] = int(event["capacity"])`
with `except (ValueError, TypeError): event["capacity"] = 0`, guarded by
`if event.get("capacity"):`. -/
def transformEventCapacity (event : ERow) : ERow :=
  if truthyOptVal (pyGet event "capacity".data) then
    pySet event "capacity".data
      (match pyInt (pyGetD event "capacity".data (.str [])) with
      | some n => .int n
      | none => .int 0)
  else event

/-- Third statement of the loop: the drive-link rewrite, guarded by
`if event.get("image") and "drive.google.com" in str(event["image"]):`. -/
def transformEventImage (event : ERow) : ERow :=
  if truthyOptVal (pyGet event "image".data)
      && strContains driveHostMarker (pyStr (pyGetD event "image".data (.str []))) then
    pySet event "image".data
      (.str (convert_google_drive_link (pyStr (pyGetD event "image".data (.str [])))))
  else event

/-- One iteration of the `for event in raw_events` loop of
`get_events_data`: the three statements in order. -/
def transform_event (event : ERow) : ERow :=
  transformEventImage (transformEventCapacity (transformEventDate event))

/-- Embedding of `utils.get_hardcoded_events` (the fallback events). -/
def get_hardcoded_events : List ERow :=
  [ [ ("id".data, .str "e1".data)
    , ("title".data, .str "Bolivian Coffee Tasting Workshop".data)
    , ("date".data, .str "2025-05-15T00:00:00".data)
    , ("time".data, .str "4:00 PM - 6:00 PM".data)
    , ("location".data, .str "Main Hall".data)
    , ("description".data, .str "Learn to make Bolivia\x27s famous salteñas from scratch with our head chef. Ingredients and recipes provided.".data)
    , ("image".data, .str "/events/event-1.jpg".data)
    , ("category".data, .str "workshop".data)
    , ("capacity".data, .int 20) ]
  , [ ("id".data, .str "e2".data)
    , ("title".data, .str "Andean Music Performance".data)
    , ("date".data, .str "2025-05-20T00:00:00".data)
    , ("time".data, .str "7:00 PM - 9:00 PM".data)
    , ("location".data, .str "Outdoor Patio".data)
    , ("description".data, .str "Experience the rich sounds of traditional Andean music with a live performance featuring panpipes, charango, and other indigenous instruments.".data)
    , ("image".data, .str "/events/event-2.jpg".data)
    , ("category".data, .str "performance".data)
    , ("capacity".data, .int 50) ]
  , [ ("id".data, .str "e3".data)
    , ("title".data, .str "Bolivian History Book Club".data)
    , ("date".data, .str "2025-05-25T00:00:00".data)
    , ("time".data, .str "6:00 PM - 8:00 PM".data)
    , ("location".data, .str "Library Corner".data)
    , ("description".data, .str "This month we\x27re discussing \x27The Bolivian Revolution: A Contemporary History\x27 by James Dunkerley. New members welcome!".data)
    , ("image".data, .str "/events/event-3.jpg".data)
    , ("category".data, .str "meeting".data)
    , ("capacity".data, .int 15) ]
  , [ ("id".data, .str "e4".data)
    , ("title".data, .str "Traditional Weaving Exhibition".data)
    , ("date".data, .str "2025-06-01T00:00:00".data)
    , ("time".data, .str "10:00 AM - 8:00 PM".data)
    , ("location".data, .str "Gallery Space".data)
    , ("description".data, .str "A two-week exhibition showcasing the intricate textile traditions of Bolivia\x27s indigenous communities, featuring works from artisans across the country.".data)
    , ("image".data, .str "/events/event-4.jpg".data)
    , ("category".data, .str "exhibition".data)
    , ("capacity".data, .int 100) ]
  , [ ("id".data, .str "e5".data)
    , ("title".data, .str "Bolivian Cooking Class: Salteñas".data)
    , ("date".data, .str "2025-06-10T00:00:00".data)
    , ("time".data, .str "2:00 PM - 5:00 PM".data)
    , ("location".data, .str "Kitchen".data)
    , ("description".data, .str "Learn to make Bolivia\x27s famous salteñas from scratch with our head chef. Ingredients and recipes provided.".data)
    , ("image".data, .str "/events/event-5.jpg".data)
    , ("category".data, .str "workshop".data)
    , ("capacity".data, .int 12) ]
  , [ ("id".data, .str "e6".data)
    , ("title".data, .str "Political Discussion: Bolivia\x27s Future".data)
    , ("date".data, .str "2025-06-18T00:00:00".data)
    , ("time".data, .str "6:30 PM - 8:30 PM".data)
    , ("location".data, .str "Main Hall".data)
    , ("description".data, .str "A moderated panel discussion with political scientists and community leaders about Bolivia\x27s current challenges and future prospects.".data)
    , ("image".data, .str "/events/event-6.jpg".data)
    , ("category".data, .str "meeting".data)
    , ("capacity".data, .int 40) ] ]

/- ------------------------------------------------------------------
Remote content gateway (`services.GoogleSheetsService`).  The steps of
`_get_worksheet` + `get_all_records` that talk to the outside world are
modelled by a source state: each failure point of the pipeline
(credential loading returning `None`, `open_by_key` raising, `worksheet`
raising, `get_all_records` raising) is one constructor, and a successful
read carries the fetched rows.
------------------------------------------------------------------ -/

inductive SourceState (ρ : Type) where
  | credFail
  | openFail
  | worksheetFail
  | readFail
  | rows (rs : List ρ)

def isSourceFailure {ρ : Type} : SourceState ρ → Bool
  | .rows _ => false
  | _ => true

/-- The raw rows delivered by `_get_worksheet(...).get_all_records()`, or
the exception message raised at the failing step. -/
def fetchRows {ρ : Type} : SourceState ρ → Except Str (List ρ)
  | .credFail => .error "Failed to get Google Sheets credentials".data
  | .openFail => .error "open_by_key".data
  | .worksheetFail => .error "worksheet".data
  | .readFail => .error "get_all_records".data
  | .rows rs => .ok rs

/-- Embedding of `GoogleSheetsService.get_menu_data`: transform the
fetched rows; on any failure fall back to the hardcoded menu.  The Lean
function is total, which embeds "never propagates an exception". -/
def get_menu_data (st : SourceState MRow) : MenuDict :=
  match fetchRows st with
  | .ok raw_menu_items => transform_menu_data raw_menu_items
  | .error _ => get_hardcoded_menu

/-- Embedding of `GoogleSheetsService.get_events_data`: transform each
fetched row; on any failure fall back to the hardcoded events. -/
def get_events_data (st : SourceState ERow) : List ERow :=
  match fetchRows st with
  | .ok raw_events => raw_events.map transform_event
  | .error _ => get_hardcoded_events

/- ------------------------------------------------------------------
`GET /api/events/{event_id}` (`api_routes.get_event`).
------------------------------------------------------------------ -/

/-- Python `==` on cell values (values of different types are unequal). -/
def pyValEq (a b : PyVal) : Bool :=
  match a, b with
  | .str x, .str y => x = y
  | .int x, .int y => x = y
  | _, _ => false

/-- Result of the `get_event` route: a matching event, the
`({"detail": "Event not found"}, 404)` tuple — which FastAPI serializes
as a JSON array body with an implicit 200 status — or a `KeyError`
propagating because a row has no "id" key (`event["id"]`). -/
inductive EventLookup where
  | found (e : ERow)
  | notFoundTuple
  | keyError
deriving DecidableEq

def findEvent (event_id : Str) : List ERow → EventLookup
  | [] => .notFoundTuple
  | e :: rest =>
    match pyGet e "id".data with
    | none => .keyError
    | some v => if pyValEq v (.str event_id) then .found e else findEvent event_id rest

/-- Embedding of `api_routes.get_event`: linear scan of the
`get_events()` result. -/
def get_event (st : SourceState ERow) (event_id : Str) : EventLookup :=
  findEvent event_id (get_events_data st)

/- ------------------------------------------------------------------
Image proxy (`api_routes.get_drive_image`), up to the point where an
upstream request is issued.
------------------------------------------------------------------ -/

/-- One character of the class `[a-zA-Z0-9_-]`. -/
def tokenChar (c : Char) : Bool :=
  c.isAlpha || c.isDigit || c = '_' || c = '-'

/-- Embedding of the Python check `re.match` against the pattern
`^[a-zA-Z0-9_-]+$`: one or more class characters anchored at the start,
where `$` also matches just before a single trailing newline. -/
def re_match_token (s : Str) : Bool :=
  let body := if s.getLast? = some '\n' then s.dropLast else s
  !body.isEmpty && body.all tokenChar

/-- Observable behaviour of `get_drive_image` before any upstream
response is seen: either an error response is returned without issuing
an upstream request, or a GET to the constructed drive URL is issued. -/
inductive ProxyStep where
  | errorResponse (status : Nat)
  | upstreamRequest (url : Str)
deriving DecidableEq

/-- Embedding of `api_routes.get_drive_image` up to the upstream
request.  When validation fails the code raises
`HTTPException(status_code=400)` inside the `try` block; that exception
is not an `httpx` error, so it is caught by the final
`except Exception` handler, which re-raises `HTTPException(500)` — the
client therefore receives 500, not 400. -/
def get_drive_image (file_id : Str) : ProxyStep :=
  if !re_match_token file_id then
    .errorResponse 500
  else
    .upstreamRequest (directUrlPrefix ++ file_id)

/- ------------------------------------------------------------------
Credential loader (`utils.get_google_sheets_credentials`).  The JSON
parser (`json.loads`) is external; the loader is parameterized by an
arbitrary parse function so that "returns the parsed value immediately
with no further checks on its content" is captured by parametricity.
------------------------------------------------------------------ -/

/-- The process environment fields the loader reads (`os.environ.get`
yields `none` for unset variables; a set-but-empty variable is
`some []`). -/
structure Env where
  GOOGLE_CREDENTIALS_JSON : Option Str
  GOOGLE_ACCOUNT_TYPE : Option Str
  GOOGLE_PROJECT_ID : Option Str
  GOOGLE_PRIVATE_KEY_ID : Option Str
  GOOGLE_PRIVATE_KEY : Option Str
  GOOGLE_CLIENT_EMAIL : Option Str
  GOOGLE_CLIENT_ID : Option Str
  GOOGLE_AUTH_URI : Option Str
  GOOGLE_TOKEN_URI : Option Str
  GOOGLE_AUTH_PROVIDER_X509_CERT_URL : Option Str
  GOOGLE_CLIENT_X509_CERT_URL : Option Str
  GOOGLE_UNIVERSE_DOMAIN : Option Str

/-- Embedding of Python `s.replace(old, new)` (for nonempty `old`), via
the standard identity `s.replace(old, new) == new.join(s.split(old))`. -/
def pyReplace (old new s : Str) : Str :=
  List.intercalate new (pySplit old s)

/-- The `credentials_info` dict assembled from individual environment
variables (field `typ` embeds the Python key "type"). -/
structure CredInfo where
  typ : Str
  project_id : Option Str
  private_key_id : Option Str
  private_key : Option Str
  client_email : Option Str
  client_id : Option Str
  auth_uri : Str
  token_uri : Str
  auth_provider_x509_cert_url : Str
  client_x509_cert_url : Option Str
  universe_domain : Str
deriving DecidableEq

def assembleCredInfo (env : Env) : CredInfo :=
  { typ := env.GOOGLE_ACCOUNT_TYPE.getD "service_account".data
  , project_id := env.GOOGLE_PROJECT_ID
  , private_key_id := env.GOOGLE_PRIVATE_KEY_ID
  , private_key :=
      match env.GOOGLE_PRIVATE_KEY with
      | some s => if truthyStr s then some (pyReplace "\\n".data "\n".data s) else none
      | none => none
  , client_email := env.GOOGLE_CLIENT_EMAIL
  , client_id := env.GOOGLE_CLIENT_ID
  , auth_uri := env.GOOGLE_AUTH_URI.getD "https://accounts.google.com/o/oauth2/auth".data
  , token_uri := env.GOOGLE_TOKEN_URI.getD "https://oauth2.googleapis.com/token".data
  , auth_provider_x509_cert_url :=
      env.GOOGLE_AUTH_PROVIDER_X509_CERT_URL.getD "https://www.googleapis.com/oauth2/v1/certs".data
  , client_x509_cert_url := env.GOOGLE_CLIENT_X509_CERT_URL
  , universe_domain := env.GOOGLE_UNIVERSE_DOMAIN.getD "googleapis.com".data }

/-- The required-field check of the loader: `project_id`, `private_key`,
`client_email` must each be truthy, else `ValueError` is raised (and the
outer handler returns `None`). -/
def requiredMissing (info : CredInfo) : Bool :=
  !truthyOptStr info.project_id || !truthyOptStr info.private_key
    || !truthyOptStr info.client_email

def fallbackAssemble {α : Type} (env : Env) : Option (α ⊕ CredInfo) :=
  let info := assembleCredInfo env
  if requiredMissing info then none else some (Sum.inr info)

/-- Embedding of `utils.get_google_sheets_credentials`, parameterized by
the JSON parser: a truthy blob that parses is returned immediately
(`Sum.inl`); otherwise the bundle is assembled from individual fields
(`Sum.inr`), and `none` embeds the `return None` failure path. -/
def get_google_sheets_credentials {α : Type} (parseJson : Str → Option α)
    (env : Env) : Option (α ⊕ CredInfo) :=
  match env.GOOGLE_CREDENTIALS_JSON with
  | some s =>
    if truthyStr s then
      match parseJson s with
      | some j => some (Sum.inl j)
      | none => fallbackAssemble env
    else fallbackAssemble env
  | none => fallbackAssemble env

/-- The blob path did not produce credentials: the variable is unset,
empty, or fails to parse. -/
def blobUnavailable {α : Type} (parseJson : Str → Option α) (env : Env) : Prop :=
  ∀ s, env.GOOGLE_CREDENTIALS_JSON = some s → (s = [] ∨ parseJson s = none)

/- ------------------------------------------------------------------
Claim theorems.
------------------------------------------------------------------ -/

/-- C1: for every failure of the spreadsheet fetch pipeline,
`get_menu_data` returns exactly the hardcoded fallback menu and
`get_events_data` returns exactly the hardcoded fallback events.  Both
embeddings are total functions, which is the embedded form of "neither
function ever propagates an exception to its caller"; the transform-step
failure arm is vacuous in the embedding because the transforms are total
on typed rows. -/
theorem C1_fallback_on_failure (stm : SourceState MRow) (ste : SourceState ERow)
    (hm : isSourceFailure stm = true) (he : isSourceFailure ste = true) :
    get_menu_data stm = get_hardcoded_menu
      ∧ get_events_data ste = get_hardcoded_events := by
  constructor
  · cases stm <;> first | rfl | cases hm
  · cases ste <;> first | rfl | cases he

/-- Witness for C1: the credential-failure state. -/
theorem C1_witness :
    isSourceFailure (SourceState.credFail : SourceState MRow) = true
    ∧ isSourceFailure (SourceState.credFail : SourceState ERow) = true
    ∧ get_menu_data SourceState.credFail = get_hardcoded_menu
    ∧ get_events_data SourceState.credFail = get_hardcoded_events :=
  ⟨rfl, rfl, (C1_fallback_on_failure SourceState.credFail SourceState.credFail rfl rfl).1,
   (C1_fallback_on_failure SourceState.credFail SourceState.credFail rfl rfl).2⟩

/-- C3: evaluation of the image proxy at the claim's two inputs.  The
path-traversal id is rejected without an upstream request, but with
status 500, not the claimed 400: the `HTTPException(status_code=400)`
raised inside the `try` block is caught by the final `except Exception`
handler and re-raised as `HTTPException(500)`.  The token id passes
validation and an upstream request to the constructed URL is issued. -/
theorem C3_proxy_validation_eval :
    get_drive_image "../etc/passwd".data = ProxyStep.errorResponse 500
    ∧ get_drive_image "AbC123_-".data
        = ProxyStep.upstreamRequest (directUrlPrefix ++ "AbC123_-".data) := by
  constructor
  · decide
  · decide

theorem pyGet_pySet_same {β : Type} (row : List (Str × β)) (k : Str) (v : β) :
    pyGet (pySet row k v) k = some v := by
  induction row with
  | nil => simp [pySet, pyGet]
  | cons p rest ih =>
    obtain ⟨k1, v1⟩ := p
    by_cases h : k1 = k
    · simp [pySet, pyGet, h]
    · simp [pySet, pyGet, h, ih]

theorem pyGet_pySet_ne {β : Type} (row : List (Str × β)) (k k2 : Str) (v : β)
    (h : k ≠ k2) : pyGet (pySet row k v) k2 = pyGet row k2 := by
  induction row with
  | nil => simp [pySet, pyGet, h]
  | cons p rest ih =>
    obtain ⟨k1, v1⟩ := p
    by_cases h1 : k1 = k
    · subst h1
      simp [pySet, pyGet, h]
    · by_cases h2 : k1 = k2
      · simp [pySet, pyGet, h1, h2, Ne.symm h]
      · simp [pySet, pyGet, h1, h2, ih]

theorem transformEventDate_capacity (e : ERow) :
    pyGet (transformEventDate e) "capacity".data = pyGet e "capacity".data := by
  unfold transformEventDate
  exact pyGet_pySet_ne e _ _ _ (by decide)

theorem transformEventImage_capacity (e : ERow) :
    pyGet (transformEventImage e) "capacity".data = pyGet e "capacity".data := by
  unfold transformEventImage
  split
  · exact pyGet_pySet_ne e _ _ _ (by decide)
  · rfl

theorem transformEventCapacity_capacity (e : ERow) :
    pyGet (transformEventCapacity e) "capacity".data =
      if truthyOptVal (pyGet e "capacity".data) then
        some (match pyInt (pyGetD e "capacity".data (PyVal.str [])) with
              | some n => PyVal.int n
              | none => PyVal.int 0)
      else pyGet e "capacity".data := by
  unfold transformEventCapacity
  split
  · exact pyGet_pySet_same e _ _
  · rfl

theorem transform_event_capacity (e : ERow) :
    pyGet (transform_event e) "capacity".data =
      if truthyOptVal (pyGet e "capacity".data) then
        some (match pyInt (pyGetD e "capacity".data (PyVal.str [])) with
              | some n => PyVal.int n
              | none => PyVal.int 0)
      else pyGet e "capacity".data := by
  unfold transform_event
  rw [transformEventImage_capacity, transformEventCapacity_capacity]
  have hd := transformEventDate_capacity e
  rw [hd]
  have hdD : pyGetD (transformEventDate e) "capacity".data (PyVal.str [])
      = pyGetD e "capacity".data (PyVal.str []) := by
    unfold pyGetD
    rw [hd]
  rw [hdD]

/-- C2 counterexample: a row whose capacity field is the empty string is
not coerced to the integer 0 — the `if event.get("capacity"):` guard is
falsy for `""`, so the empty string survives into the output. -/
theorem C2_counterexample :
    get_events_data (SourceState.rows [[("capacity".data, PyVal.str [])]])
      = [[("capacity".data, PyVal.str []), ("date".data, PyVal.str [])]]
    ∧ ¬ (pyGet ((get_events_data
          (SourceState.rows [[("capacity".data, PyVal.str [])]])).getD 0 [])
            "capacity".data = some (PyVal.int 0)) := by
  constructor
  · decide
  · decide

/-- C2 (amended): the capacity coercion applies only to truthy capacity
values.  A truthy string is coerced (numeric string to its integer,
non-numeric string to 0), an int is left as itself; an empty-string
capacity stays the empty string, and an absent capacity field stays
absent — neither becomes 0. -/
theorem C2_capacity_coercion_amended (e : ERow) :
    (∀ s : Str, pyGet e "capacity".data = some (PyVal.str s) → s ≠ [] →
      pyGet (transform_event e) "capacity".data =
        some (match pyIntOfStr s with
              | some n => PyVal.int n
              | none => PyVal.int 0))
    ∧ (pyGet e "capacity".data = some (PyVal.str []) →
      pyGet (transform_event e) "capacity".data = some (PyVal.str []))
    ∧ (pyGet e "capacity".data = none →
      pyGet (transform_event e) "capacity".data = none)
    ∧ (∀ n : Int, pyGet e "capacity".data = some (PyVal.int n) →
      pyGet (transform_event e) "capacity".data = some (PyVal.int n)) := by
  refine ⟨?_, ?_, ?_, ?_⟩
  · intro s hcap hs
    rw [transform_event_capacity, hcap]
    cases s with
    | nil => exact absurd rfl hs
    | cons c cs =>
      simp [truthyOptVal, truthyVal, pyGetD, hcap, pyInt]
  · intro hcap
    rw [transform_event_capacity, hcap]
    rfl
  · intro hcap
    rw [transform_event_capacity, hcap]
    rfl
  · intro n hcap
    rw [transform_event_capacity, hcap]
    by_cases hn : n = 0
    · subst hn
      rfl
    · simp [truthyOptVal, truthyVal, pyGetD, hcap, pyInt, hn]

/-- Witness for C2: the numeric string "20" is coerced to the integer 20. -/
theorem C2_witness :
    ("20".data ≠ ([] : Str))
    ∧ pyGet (transform_event [("capacity".data, PyVal.str "20".data)]) "capacity".data
        = some (PyVal.int 20) :=
  ⟨by decide,
   by rw [(C2_capacity_coercion_amended [("capacity".data, PyVal.str "20".data)]).1
        "20".data rfl (by decide)]; decide⟩

/-- C8: when the structured credential blob is present (truthy) and
parses, the parsed value is returned immediately — with no checks on its
content, since the result is `Sum.inl j` for an arbitrary parse result
`j` of arbitrary type.  Otherwise the bundle is assembled from
individual fields, and the loader returns `none` (Python `None`) exactly
when one of `project_id`, `private_key`, `client_email` is missing. -/
theorem C8_credential_loader {α : Type} (parseJson : Str → Option α) (env : Env) :
    (∀ (s : Str) (j : α), env.GOOGLE_CREDENTIALS_JSON = some s → s ≠ [] →
      parseJson s = some j →
      get_google_sheets_credentials parseJson env = some (Sum.inl j))
    ∧ (blobUnavailable parseJson env →
      get_google_sheets_credentials parseJson env =
        if requiredMissing (assembleCredInfo env) then none
        else some (Sum.inr (assembleCredInfo env))) := by
  constructor
  · intro s j hblob hs hp
    have ht : truthyStr s = true := by
      cases s with
      | nil => exact absurd rfl hs
      | cons c cs => rfl
    simp [get_google_sheets_credentials, hblob, ht, hp]
  · intro hb
    cases hblob : env.GOOGLE_CREDENTIALS_JSON with
    | none =>
      simp only [get_google_sheets_credentials, hblob]
      rfl
    | some s =>
      rcases hb s hblob with hempty | hnone
      · subst hempty
        simp only [get_google_sheets_credentials, hblob]
        rfl
      · cases s with
        | nil =>
          simp only [get_google_sheets_credentials, hblob]
          rfl
        | cons c cs =>
          simp only [get_google_sheets_credentials, hblob, hnone]
          rfl

/-- Witness for C8: a parsing blob is returned as-is; with no blob and no
fields the loader fails. -/
theorem C8_witness :
    get_google_sheets_credentials (fun _ => some (42 : Nat))
        ⟨some "x".data, none, none, none, none, none, none, none, none, none, none, none⟩
      = some (Sum.inl 42)
    ∧ get_google_sheets_credentials (fun _ => (none : Option Nat))
        ⟨none, none, none, none, none, none, none, none, none, none, none, none⟩
      = none :=
  ⟨(C8_credential_loader (fun _ => some (42 : Nat))
      ⟨some "x".data, none, none, none, none, none, none, none, none, none, none, none⟩).1
      "x".data 42 rfl (by decide) rfl,
   by
    rw [(C8_credential_loader (fun _ => (none : Option Nat))
      ⟨none, none, none, none, none, none, none, none, none, none, none, none⟩).2
      (fun s h => by cases h)]
    decide⟩

/-- Does the row's "id" value equal the requested id under Python `==`? -/
def eventIdMatches (event_id : Str) (e : ERow) : Bool :=
  match pyGet e "id".data with
  | none => false
  | some v => pyValEq v (.str event_id)

theorem findEvent_eq (event_id : Str) :
    ∀ l : List ERow, (∀ e ∈ l, (pyGet e "id".data).isSome = true) →
      findEvent event_id l =
        match l.find? (eventIdMatches event_id) with
        | some e => EventLookup.found e
        | none => EventLookup.notFoundTuple := by
  intro l
  induction l with
  | nil => intro _; rfl
  | cons e rest ih =>
    intro h
    have he : (pyGet e "id".data).isSome = true := h e (by simp)
    cases hv : pyGet e "id".data with
    | none => rw [hv] at he; cases he
    | some v =>
      cases hm : pyValEq v (.str event_id) with
      | true =>
        simp [findEvent, hv, hm, List.find?_cons, eventIdMatches]
      | false =>
        simp only [findEvent, hv, hm, List.find?_cons, eventIdMatches]
        rw [ih (fun x hx => h x (by simp [hx]))]
        simp [eventIdMatches]

/-- C9: `GET /api/events/{id}` performs a linear scan of the
`get_events()` result and returns the first event whose "id" equals the
requested id; when no event matches it returns the
`({"detail": "Event not found"}, 404)` tuple, which FastAPI serializes
with an implicit 200 status (the `EventLookup.notFoundTuple`
constructor).  The hypothesis excludes rows without an "id" key, on
which the scan's `event["id"]` would raise `KeyError`. -/
theorem C9_event_lookup (st : SourceState ERow) (event_id : Str)
    (h : ∀ e ∈ get_events_data st, (pyGet e "id".data).isSome = true) :
    get_event st event_id =
      match (get_events_data st).find? (eventIdMatches event_id) with
      | some e => EventLookup.found e
      | none => EventLookup.notFoundTuple :=
  findEvent_eq event_id (get_events_data st) h

/-- Witness for C9: an unknown id against the fallback events. -/
theorem C9_witness :
    (∀ e ∈ get_events_data SourceState.credFail, (pyGet e "id".data).isSome = true)
    ∧ get_event SourceState.credFail "nope".data = EventLookup.notFoundTuple :=
  ⟨by decide,
   by rw [C9_event_lookup SourceState.credFail "nope".data (by decide)]; decide⟩

/-- The field constraints `mkDateTime` enforces. -/
def validDT (dt : PyDateTime) : Prop :=
  1 ≤ dt.year ∧ dt.year ≤ 9999 ∧ 1 ≤ dt.month ∧ dt.month ≤ 12
    ∧ 1 ≤ dt.day ∧ dt.day ≤ 31 ∧ dt.hour ≤ 23 ∧ dt.minute ≤ 59 ∧ dt.second ≤ 59

theorem mkDateTime_valid {y mo d h mi s : Nat} {dt : PyDateTime}
    (he : mkDateTime y mo d h mi s = some dt) :
    validDT dt ∧ dt = ⟨y, mo, d, h, mi, s⟩ := by
  unfold mkDateTime at he
  split at he
  · injection he with he1
    subst he1
    rename_i hcond
    exact ⟨hcond, rfl⟩
  · cases he

theorem parseDateTime_valid {str : Str} {dt : PyDateTime}
    (h : parseDateTime str = some dt) : validDT dt := by
  unfold parseDateTime at h
  split at h
  · simp only [bind, Option.bind_eq_some] at h
    obtain ⟨y, _, mo, _, d, _, hmk⟩ := h
    exact (mkDateTime_valid hmk).1
  · simp only [bind, Option.bind_eq_some] at h
    obtain ⟨y, _, mo, _, d, _, hh, _, mi, _, s, _, hmk⟩ := h
    exact (mkDateTime_valid hmk).1
  · cases h

theorem digitVal_digitChar (n : Nat) (h : n < 10) :
    digitVal (Nat.digitChar n) = some n := by
  interval_cases n <;> rfl

theorem parse2_render2 (n : Nat) (h : n < 100) :
    parse2 (Nat.digitChar (n / 10)) (Nat.digitChar (n % 10)) = some n := by
  have h1 : n / 10 < 10 := by omega
  have h2 : n % 10 < 10 := by omega
  simp only [parse2, digitVal_digitChar _ h1, digitVal_digitChar _ h2,
    bind, Option.some_bind, pure]
  congr 1
  omega

theorem parse4_render4 (n : Nat) (h : n < 10000) :
    parse4 (Nat.digitChar (n / 1000)) (Nat.digitChar (n / 100 % 10))
      (Nat.digitChar (n / 10 % 10)) (Nat.digitChar (n % 10)) = some n := by
  have h1 : n / 1000 < 10 := by omega
  have h2 : n / 100 % 10 < 10 := by omega
  have h3 : n / 10 % 10 < 10 := by omega
  have h4 : n % 10 < 10 := by omega
  simp only [parse4, digitVal_digitChar _ h1, digitVal_digitChar _ h2,
    digitVal_digitChar _ h3, digitVal_digitChar _ h4,
    bind, Option.some_bind, pure]
  congr 1
  omega

theorem parseDateTime_isoFormat (dt : PyDateTime) (h : validDT dt) :
    parseDateTime (isoFormat dt) = some dt := by
  obtain ⟨h1, h2, h3, h4, h5, h6, h7, h8, h9⟩ := h
  simp only [isoFormat, render4, render2, List.cons_append, List.nil_append]
  simp only [parseDateTime,
    parse4_render4 dt.year (by omega),
    parse2_render2 dt.month (by omega),
    parse2_render2 dt.day (by omega),
    parse2_render2 dt.hour (by omega),
    parse2_render2 dt.minute (by omega),
    parse2_render2 dt.second (by omega),
    bind, Option.some_bind]
  unfold mkDateTime
  rw [if_pos]
  exact ⟨h1, h2, h3, h4, h5, h6, h7, h8, h9⟩

/-- C5: `normalize_event_date` is total and value-preserving.  When the
parse succeeds, the result is the ISO rendering of the parsed value and
parses back to the very same value (round-trip in value); when the parse
fails, the input is returned verbatim.  `parseDateTime` is the model of
the third-party `dateutil` parser restricted to the ISO shapes the spec
names. -/
theorem C5_normalize_total_value_preserving :
    (∀ (s : Str) (dt : PyDateTime), parseDateTime s = some dt →
      normalize_event_date s = isoFormat dt
      ∧ parseDateTime (normalize_event_date s) = some dt)
    ∧ (∀ s : Str, parseDateTime s = none → normalize_event_date s = s) := by
  constructor
  · intro s dt h
    have hv := parseDateTime_valid h
    refine ⟨?_, ?_⟩
    · unfold normalize_event_date
      rw [h]
    · unfold normalize_event_date
      rw [h]
      exact parseDateTime_isoFormat dt hv
  · intro s h
    unfold normalize_event_date
    rw [h]

/-- Witness for C5: a date-only ISO input normalizes to the midnight ISO
date-time denoting the same value, and a non-date passes through. -/
theorem C5_witness :
    parseDateTime "2024-07-01".data = some ⟨2024, 7, 1, 0, 0, 0⟩
    ∧ normalize_event_date "2024-07-01".data = "2024-07-01T00:00:00".data
    ∧ parseDateTime (normalize_event_date "2024-07-01".data)
        = some ⟨2024, 7, 1, 0, 0, 0⟩
    ∧ parseDateTime "hello".data = none
    ∧ normalize_event_date "hello".data = "hello".data :=
  ⟨by decide,
   by
    rw [(C5_normalize_total_value_preserving.1 "2024-07-01".data
      ⟨2024, 7, 1, 0, 0, 0⟩ (by decide)).1]
    decide,
   (C5_normalize_total_value_preserving.1 "2024-07-01".data
      ⟨2024, 7, 1, 0, 0, 0⟩ (by decide)).2,
   by decide,
   C5_normalize_total_value_preserving.2 "hello".data (by decide)⟩

/- ------------------------------------------------------------------
Menu-transform lemmas for C6, C7, C10.
------------------------------------------------------------------ -/

theorem menuStep_skip {m : MenuDict} {item : MRow}
    (h : truthyOptStr (pyGet item "category_key".data) = false
      ∨ truthyOptStr (pyGet item "item_name".data) = false) :
    menuStep m item = m := by
  unfold menuStep
  rcases h with h | h <;> simp [h]

theorem menuStep_keyTitles (m : MenuDict) (item : MRow) :
    (menuStep m item).map (fun p => (p.1, p.2.title))
      = m.map (fun p => (p.1, p.2.title)) := by
  unfold menuStep
  split
  · rfl
  · split
    · unfold menuAppend
      rw [List.map_map]
      refine List.map_congr_left ?_
      intro p _
      by_cases hp : p.1 = normCategoryKey item
      · simp [hp]
      · simp [hp]
    · rfl

theorem menuStep_keysOf (m : MenuDict) (item : MRow) :
    (menuStep m item).map Prod.fst = m.map Prod.fst := by
  have h := congrArg (List.map Prod.fst) (menuStep_keyTitles m item)
  simpa [List.map_map, Function.comp] using h

theorem foldl_menuStep_keyTitles (rows : List MRow) :
    ∀ m : MenuDict, ((rows.foldl menuStep m).map (fun p => (p.1, p.2.title)))
      = m.map (fun p => (p.1, p.2.title)) := by
  induction rows with
  | nil => intro m; rfl
  | cons r rest ih =>
    intro m
    rw [List.foldl_cons, ih, menuStep_keyTitles]

theorem foldl_menuStep_keysOf (rows : List MRow) :
    ∀ m : MenuDict, ((rows.foldl menuStep m).map Prod.fst) = m.map Prod.fst := by
  induction rows with
  | nil => intro m; rfl
  | cons r rest ih =>
    intro m
    rw [List.foldl_cons, ih, menuStep_keysOf]

theorem catItems_cons (k k1 : Str) (cat : MenuCategory) (rest : MenuDict) :
    catItems k ((k1, cat) :: rest) = if k1 = k then cat.items else catItems k rest := by
  by_cases h : k1 = k
  · simp [catItems, pyGet, h]
  · simp [catItems, pyGet, h]

theorem menuAppend_cons (k2 : Str) (it : MenuItem) (k1 : Str) (cat : MenuCategory)
    (rest : MenuDict) :
    menuAppend k2 it ((k1, cat) :: rest) =
      (if k1 = k2 then (k1, MenuCategory.mk cat.title (cat.items ++ [it])) else (k1, cat))
        :: menuAppend k2 it rest := rfl

theorem catItems_menuAppend_same (k : Str) (it : MenuItem) :
    ∀ m : MenuDict, k ∈ m.map Prod.fst →
      catItems k (menuAppend k it m) = catItems k m ++ [it] := by
  intro m
  induction m with
  | nil => intro hk; simp at hk
  | cons p rest ih =>
    intro hk
    obtain ⟨k1, cat⟩ := p
    rw [menuAppend_cons]
    by_cases h1 : k1 = k
    · rw [if_pos h1]
      rw [catItems_cons, if_pos h1]
      rw [catItems_cons, if_pos h1]
    · rw [if_neg h1]
      rw [catItems_cons, if_neg h1]
      rw [catItems_cons, if_neg h1]
      refine ih ?_
      simp only [List.map_cons, List.mem_cons] at hk
      rcases hk with hk | hk
      · exact absurd hk.symm h1
      · exact hk

theorem catItems_menuAppend_ne (k k2 : Str) (it : MenuItem) (h : k2 ≠ k) :
    ∀ m : MenuDict, catItems k (menuAppend k2 it m) = catItems k m := by
  intro m
  induction m with
  | nil => rfl
  | cons p rest ih =>
    obtain ⟨k1, cat⟩ := p
    rw [menuAppend_cons]
    by_cases h1 : k1 = k2
    · have h2 : ¬ (k1 = k) := by rw [h1]; exact h
      rw [if_pos h1]
      rw [catItems_cons, if_neg h2]
      rw [catItems_cons, if_neg h2]
      exact ih
    · by_cases h2 : k1 = k
      · rw [if_neg h1]
        rw [catItems_cons, if_pos h2]
        rw [catItems_cons, if_pos h2]
      · rw [if_neg h1]
        rw [catItems_cons, if_neg h2]
        rw [catItems_cons, if_neg h2]
        exact ih

/-- The row is routed into bucket `k`: not skipped, and its normalized
category key is `k`. -/
def routesTo (k : Str) (item : MRow) : Bool :=
  truthyOptStr (pyGet item "category_key".data)
    && truthyOptStr (pyGet item "item_name".data)
    && (normCategoryKey item == k)

theorem catItems_menuStep (m : MenuDict) (item : MRow) (k : Str)
    (hk : k ∈ m.map Prod.fst) :
    catItems k (menuStep m item)
      = catItems k m ++ (if routesTo k item then [mkMenuItem item] else []) := by
  unfold menuStep routesTo
  cases hck : truthyOptStr (pyGet item "category_key".data) with
  | false => simp [hck]
  | true =>
    cases hin : truthyOptStr (pyGet item "item_name".data) with
    | false => simp [hck, hin]
    | true =>
      by_cases hkey : normCategoryKey item = k
      · have hany : m.any (fun p => p.1 = normCategoryKey item) = true := by
          rw [List.any_eq_true]
          rw [List.mem_map] at hk
          obtain ⟨p, hp, hpk⟩ := hk
          refine ⟨p, hp, ?_⟩
          simp [hpk, hkey]
        rw [hkey] at hany ⊢
        simp [hck, hin, hany, catItems_menuAppend_same k (mkMenuItem item) m hk]
      · have hne : (normCategoryKey item == k) = false := by simp [hkey]
        simp only [hck, hin, hne, Bool.true_and, Bool.and_false, Bool.not_true,
          Bool.or_self, Bool.false_eq_true, if_false, List.append_nil]
        split
        · exact catItems_menuAppend_ne k (normCategoryKey item) (mkMenuItem item) hkey m
        · rfl

theorem catItems_foldl (k : Str) :
    ∀ (rows : List MRow) (m : MenuDict), k ∈ m.map Prod.fst →
      catItems k (rows.foldl menuStep m)
        = catItems k m ++ (rows.filter (routesTo k)).map mkMenuItem := by
  intro rows
  induction rows with
  | nil => intro m _; simp
  | cons r rest ih =>
    intro m hk
    have hk2 : k ∈ (menuStep m r).map Prod.fst := by
      rw [menuStep_keysOf]; exact hk
    rw [List.foldl_cons, ih (menuStep m r) hk2, catItems_menuStep m r k hk]
    cases hr : routesTo k r with
    | true => simp [List.filter_cons, hr]
    | false => simp [List.filter_cons, hr]

theorem menuStep_unknownKey {m : MenuDict} {item : MRow}
    (h : m.any (fun p => p.1 = normCategoryKey item) = false) :
    menuStep m item = m := by
  unfold menuStep
  split
  · rfl
  · rw [h]
    rfl

/-- A normalized category key equal to "autor" forces a truthy raw
`category_key` (the empty/absent key normalizes to the empty string). -/
theorem truthy_ck_of_normKey {row : MRow} (h : normCategoryKey row = autorKey) :
    truthyOptStr (pyGet row "category_key".data) = true := by
  cases hv : pyGet row "category_key".data with
  | none =>
    unfold normCategoryKey pyGetD at h
    rw [hv] at h
    exact absurd h (by decide)
  | some s =>
    cases s with
    | nil =>
      unfold normCategoryKey pyGetD at h
      rw [hv] at h
      exact absurd h (by decide)
    | cons c cs => simp [truthyOptStr, truthyStr, hv]

/-- C10: for every input, the key set of the menu transform's output is
exactly the three fixed keys with their fixed display titles — no input
row ever creates an additional category. -/
theorem C10_menu_keys_fixed (raw_items : List MRow) :
    (transform_menu_data raw_items).map (fun p => (p.1, p.2.title))
      = [ (cafesKey, "Cafes y Bebidas".data)
        , (autorKey, "Cocina de Autor".data)
        , (pasteleriaKey, "Pastelería".data) ] := by
  unfold transform_menu_data
  rw [foldl_menuStep_keyTitles]
  rfl

/-- C7: the transform's output always contains the three category
buckets (even when empty), and the items of each bucket are exactly the
rows routed to it, in input order — which entails that relative row
order is preserved within each category. -/
theorem C7_menu_buckets_and_order (raw_items : List MRow) :
    (transform_menu_data raw_items).map Prod.fst = [cafesKey, autorKey, pasteleriaKey]
    ∧ catItems cafesKey (transform_menu_data raw_items)
        = (raw_items.filter (routesTo cafesKey)).map mkMenuItem
    ∧ catItems autorKey (transform_menu_data raw_items)
        = (raw_items.filter (routesTo autorKey)).map mkMenuItem
    ∧ catItems pasteleriaKey (transform_menu_data raw_items)
        = (raw_items.filter (routesTo pasteleriaKey)).map mkMenuItem := by
  refine ⟨?_, ?_, ?_, ?_⟩
  · unfold transform_menu_data
    rw [foldl_menuStep_keysOf]
    rfl
  · unfold transform_menu_data
    rw [catItems_foldl cafesKey raw_items menuInit (by decide)]
    rfl
  · unfold transform_menu_data
    rw [catItems_foldl autorKey raw_items menuInit (by decide)]
    rfl
  · unfold transform_menu_data
    rw [catItems_foldl pasteleriaKey raw_items menuInit (by decide)]
    rfl

/-- C6: a row whose raw `category_key` or `item_name` is falsy is
skipped — the transform's output on any input sequence containing it is
the output on the sequence without it, so the row appears in no
category (the trim/case-fold of the claim applies to the category key:
a key of only whitespace survives this raw check but normalizes to ""
and is then dropped as an unknown key, which part C10/C7 cover).  And a
non-skipped row whose category key case-folds and trims to "autor" is
placed in the "autor" bucket. -/
theorem C6_menu_skip_and_autor_bucket (rows1 rows2 : List MRow) (row : MRow) :
    ((truthyOptStr (pyGet row "category_key".data) = false
        ∨ truthyOptStr (pyGet row "item_name".data) = false) →
      transform_menu_data (rows1 ++ row :: rows2) = transform_menu_data (rows1 ++ rows2))
    ∧ (normCategoryKey row = [] →
      transform_menu_data (rows1 ++ row :: rows2) = transform_menu_data (rows1 ++ rows2))
    ∧ (truthyOptStr (pyGet row "item_name".data) = true →
      normCategoryKey row = autorKey →
      mkMenuItem row ∈ catItems autorKey (transform_menu_data (rows1 ++ row :: rows2))) := by
  refine ⟨?_, ?_, ?_⟩
  · intro h
    unfold transform_menu_data
    rw [List.foldl_append, List.foldl_append, List.foldl_cons, menuStep_skip h]
  · intro hempty
    unfold transform_menu_data
    rw [List.foldl_append, List.foldl_append, List.foldl_cons]
    congr 1
    by_cases hskip : truthyOptStr (pyGet row "category_key".data) = false
        ∨ truthyOptStr (pyGet row "item_name".data) = false
    · exact menuStep_skip hskip
    · apply menuStep_unknownKey
      rw [hempty]
      have hkeys : (rows1.foldl menuStep menuInit).map Prod.fst
          = [cafesKey, autorKey, pasteleriaKey] := by
        rw [foldl_menuStep_keysOf]
        rfl
      cases hb : (rows1.foldl menuStep menuInit).any (fun p => p.1 = ([] : Str)) with
      | false => rfl
      | true =>
        rw [List.any_eq_true] at hb
        obtain ⟨p, hp, hpe⟩ := hb
        have hmem : p.1 ∈ (rows1.foldl menuStep menuInit).map Prod.fst :=
          List.mem_map_of_mem Prod.fst hp
        rw [hkeys, of_decide_eq_true hpe] at hmem
        exact absurd hmem (by decide)
  · intro hname hkey
    have hck := truthy_ck_of_normKey hkey
    have hroutes : routesTo autorKey row = true := by
      unfold routesTo
      rw [hck, hname, hkey]
      simp
    have hmem : row ∈ rows1 ++ row :: rows2 := by simp
    unfold transform_menu_data
    rw [catItems_foldl autorKey (rows1 ++ row :: rows2) menuInit (by decide)]
    refine List.mem_append_right _ ?_
    exact List.mem_map_of_mem mkMenuItem (List.mem_filter.mpr ⟨hmem, hroutes⟩)

/-- Witness for C6: a row without `item_name` is skipped; a row whose
`category_key` is whitespace-only is dropped; a row with
`category_key = " AUTOR "` lands in the "autor" bucket. -/
theorem C6_witness :
    (truthyOptStr (pyGet ([("category_key".data, "autor".data)] : MRow) "item_name".data) = false
      ∧ transform_menu_data [[("category_key".data, "autor".data)]]
          = transform_menu_data [])
    ∧ (normCategoryKey [("category_key".data, "  ".data), ("item_name".data, "X".data)] = []
      ∧ transform_menu_data [[("category_key".data, "  ".data), ("item_name".data, "X".data)]]
          = transform_menu_data [])
    ∧ (normCategoryKey [("category_key".data, " AUTOR ".data), ("item_name".data, "X".data)]
          = autorKey
      ∧ mkMenuItem [("category_key".data, " AUTOR ".data), ("item_name".data, "X".data)]
          ∈ catItems autorKey (transform_menu_data
              [[("category_key".data, " AUTOR ".data), ("item_name".data, "X".data)]])) :=
  ⟨⟨by decide,
    by
      have := (C6_menu_skip_and_autor_bucket [] [] [("category_key".data, "autor".data)]).1
        (Or.inr (by decide))
      simpa using this⟩,
   ⟨by decide,
    by
      have := (C6_menu_skip_and_autor_bucket [] []
        [("category_key".data, "  ".data), ("item_name".data, "X".data)]).2.1 (by decide)
      simpa using this⟩,
   ⟨by decide,
    by
      have := (C6_menu_skip_and_autor_bucket [] []
        [("category_key".data, " AUTOR ".data), ("item_name".data, "X".data)]).2.2
        (by decide) (by decide)
      simpa using this⟩⟩

end BackendP
